import Mathlib

/- Verification development for the hipache-hchecker health checker.

   Shallow embedding of the two source files:
   - check.go: probe classification, NewCheck notification parsing, and the
     PingUrl polling loop (the per-backend check state machine);
   - the dispatcher/supervisor file: addCheck, the dry-run callback wiring,
     printStats and the process exit paths.

   Machine integers are modelled as Nat/Int (the values involved are tiny),
   time is modelled as a Nat clock in seconds that advances by the poll
   interval on each loop iteration, and the fallible Go calls are modelled
   with Except/Option.  The Redis cache client (cache.go) is not part of the
   sources; its operations are modelled as opaque operation labels, which is
   all the claims about the dispatcher need. -/

/-! ## Configuration constants (check.go lines 16-35, defaults) -/

def CHECK_INTERVAL : Nat := 5

def CHECK_DURATION : Nat := 300

def CHECK_BREAK_INTERVAL : Nat := 60

/-- Hard-coded 30 second dead-record refresh used in PingUrl (check.go line 199). -/
def DEAD_REFRESH_INTERVAL : Nat := 30

/-! ## Probe classification (check.go lines 152-170)

One probe either fails at the transport (TCP) level or returns an HTTP
status code.  PingUrl sets newStatus/healthy to false on a TCP error and on
a status in [500,600) other than 503, and to true otherwise. -/

inductive ProbeResult
  | tcpError
  | httpStatus (code : Nat)
deriving DecidableEq

def classify : ProbeResult → Bool
  | .tcpError => false
  | .httpStatus code => if 500 ≤ code ∧ code < 600 ∧ code ≠ 503 then false else true

/-! ## String helpers modelling the Go standard library calls NewCheck makes -/

/-- Model of the whitespace class trimmed by strings.TrimSpace (the ASCII
part of unicode.IsSpace, which covers every input the checker meets). -/
def isSpaceChar (c : Char) : Bool :=
  c = ' ' || c = '\t' || c = '\n' || c = '\r' || c = '\x0b' || c = '\x0c'

def trimSpace (cs : List Char) : List Char :=
  ((cs.dropWhile isSpaceChar).reverse.dropWhile isSpaceChar).reverse

/-- Model of strings.Split for a one-character separator: splitOnChar sep cs
returns the groups of cs between occurrences of sep; the empty list yields
one empty group, as strings.Split does. -/
def splitOnChar (sep : Char) (cs : List Char) : List (List Char) :=
  cs.foldr
    (fun c acc =>
      if c = sep then [] :: acc
      else
        match acc with
        | g :: gs => (c :: g) :: gs
        | [] => [[c]])
    [[]]

/-- Syntactic validity of strconv.Atoi input: an optional sign followed by
one or more ASCII digits, consuming the whole string. -/
def goAtoiValid (s : String) : Bool :=
  match s.data with
  | [] => false
  | '+' :: rest => !rest.isEmpty && rest.all Char.isDigit
  | '-' :: rest => !rest.isEmpty && rest.all Char.isDigit
  | cs => cs.all Char.isDigit

def digitsToNat (cs : List Char) : Nat :=
  cs.foldl (fun acc c => acc * 10 + (c.toNat - 48)) 0

/-- Model of strconv.Atoi as used in NewCheck: the error return is discarded
there, and Atoi yields the value 0 together with an error on any
syntactically invalid input, so the observable result is 0.  (The 64-bit
range clamping of Atoi is not modelled; the fields involved are tiny.) -/
def atoi (s : String) : Int :=
  if goAtoiValid s then
    match s.data with
    | '+' :: rest => (digitsToNat rest : Int)
    | '-' :: rest => -(digitsToNat rest : Int)
    | cs => (digitsToNat cs : Int)
  else 0

structure GoUrl where
  scheme : String
  host : String
deriving DecidableEq

def isHexChar (c : Char) : Bool :=
  c.isDigit || ('a' ≤ c && c ≤ 'f') || ('A' ≤ c && c ≤ 'F')

/-- Every '%' in the list must be followed by two hexadecimal digits; this is
the percent-escape check url.Parse performs on the URL (an invalid escape is
its stable error case across Go versions). -/
def validEscapes : List Char → Bool
  | [] => true
  | '%' :: a :: b :: rest => isHexChar a && isHexChar b && validEscapes rest
  | '%' :: _ => false
  | _ :: rest => validEscapes rest

def isSchemeChar (c : Char) : Bool :=
  c.isAlpha || c.isDigit || c = '+' || c = '-' || c = '.'

/-- Locate the first "://" in the list, returning the part before it and the
part after it. -/
def splitScheme : List Char → Option (List Char × List Char)
  | ':' :: '/' :: '/' :: rest => some ([], rest)
  | c :: rest =>
      match splitScheme rest with
      | some (pre, post) => some (c :: pre, post)
      | none => none
  | [] => none

/-- Model of the Go standard library function url.Parse, restricted to what
NewCheck consumes (the Scheme and Host fields) and to the inputs the checker
meets in practice: absolute URLs of the shape scheme://host followed by an
optional path, without userinfo or a query string.  Two behaviours are kept
faithfully: scheme and host extraction (the scheme is lowercased, the host
ends at the first '/', '?' or '#'), and the error url.Parse raises on an
invalid percent escape (a '%' not followed by two hexadecimal digits).  A
string without a well-formed scheme prefix parses as a relative reference,
with empty Scheme and Host. -/
def urlParse (s : String) : Except String GoUrl :=
  if validEscapes s.data = false then .error "invalid URL escape"
  else
    match splitScheme s.data with
    | some (pre, post) =>
        if (pre.headD '0').isAlpha && pre.all isSchemeChar then
          .ok { scheme := String.mk (pre.map Char.toLower),
                host := String.mk (post.takeWhile fun c => !(c = '/' || c = '?' || c = '#')) }
        else .ok { scheme := "", host := "" }
    | none => .ok { scheme := "", host := "" }

/-! ## NewCheck (check.go lines 69-88) -/

structure Check where
  BackendUrl : String
  BackendId : Int
  BackendGroupLength : Int
  FrontendKey : String
deriving DecidableEq

/-- NewCheck: split the trimmed line on ";", require exactly 4 fields, parse
the backend URL and rebuild its origin as scheme://host, and parse the two
integer fields with strconv.Atoi whose error is discarded (a non-numeric
field therefore yields 0).  The user-agent initialisation in the source only
touches logging state and is not modelled. -/
def NewCheck (line : String) : Except String Check :=
  let parts := (splitOnChar ';' (trimSpace line.data)).map String.mk
  if parts.length ≠ 4 then .error "Invalid check line"
  else
    match urlParse (parts.getD 1 "") with
    | .error e => .error e
    | .ok u =>
        .ok { BackendUrl := u.scheme ++ "://" ++ u.host,
              BackendId := atoi (parts.getD 2 ""),
              BackendGroupLength := atoi (parts.getD 3 ""),
              FrontendKey := parts.getD 0 "" }

/-! ## Dispatcher: addCheck and the dry-run callback wiring

The Redis client (cache.go) is not among the sources; the dispatcher claims
only concern WHICH cache operations are issued, so the operations are
modelled as labels and addCheck as the list of operations it issues together
with its outcome.  The result of cache.LockBackend is an input
(lockGranted). -/

inductive CacheOp
  | lockBackend
  | markBackendDead
  | markBackendAlive
  | isUnlockedBackend
  | unlockBackend
  | pingAlive
deriving DecidableEq

structure DispatchResult where
  warned : Bool
  ops : List CacheOp
  checkStarted : Bool
deriving DecidableEq

/-- addCheck (dispatcher lines 26-77): drop an unparsable line with a
warning; drop a line whose group length is at most 1; otherwise call
cache.LockBackend (with no dry-run guard in the source) and, when the lock
is granted, wire the callbacks and spawn PingUrl. -/
def addCheck (line : String) (lockGranted : Bool) (dryRun : Bool) : DispatchResult :=
  match NewCheck line with
  | .error _ => { warned := true, ops := [], checkStarted := false }
  | .ok check =>
      if check.BackendGroupLength ≤ 1 then
        { warned := false, ops := [], checkStarted := false }
      else if lockGranted then
        { warned := false, ops := [CacheOp.lockBackend], checkStarted := true }
      else
        { warned := false, ops := [CacheOp.lockBackend], checkStarted := false }

/-- Cache operations issued by the dead callback (dispatcher lines 44-54):
cache.MarkBackendDead only when dryRun is false. -/
def deadCallbackOps (dryRun : Bool) : List CacheOp :=
  if dryRun then [] else [CacheOp.markBackendDead]

/-- Result returned by the dead callback: true in dry-run mode, otherwise
the result of cache.MarkBackendDead. -/
def deadCallbackRet (dryRun markResult : Bool) : Bool :=
  if dryRun then true else markResult

/-- Message suffix logged by the dead callback. -/
def deadCallbackMsg (dryRun : Bool) : String :=
  if dryRun then "as dead (dry run)" else "as dead"

/-- Cache operations issued by the alive callback (dispatcher lines 55-65). -/
def aliveCallbackOps (dryRun : Bool) : List CacheOp :=
  if dryRun then [] else [CacheOp.markBackendAlive]

def aliveCallbackRet (dryRun markResult : Bool) : Bool :=
  if dryRun then true else markResult

def aliveCallbackMsg (dryRun : Bool) : String :=
  if dryRun then "as alive (dry run)" else "as alive"

/-- The break callback always queries cache.IsUnlockedBackend (lines 66-68);
there is no dry-run guard in the source. -/
def checkIfBreakOps (dryRun : Bool) : List CacheOp :=
  [CacheOp.isUnlockedBackend]

/-- The exit callback always calls cache.UnlockBackend (lines 69-72); there
is no dry-run guard in the source. -/
def exitCallbackOps (dryRun : Bool) : List CacheOp :=
  [CacheOp.unlockBackend]

/-- Cache operations issued by one printStats tick (lines 85-90):
cache.PingAlive only when dryRun is false. -/
def printStatsTickOps (dryRun : Bool) : List CacheOp :=
  if dryRun then [] else [CacheOp.pingAlive]

/-! ## Process exit paths (dispatcher lines 93-104, 137-147, 204-213) -/

inductive GoSignal
  | sigint
  | otherSignal
deriving DecidableEq

/-- handleSignals registers only SIGINT and exits with code 0 on receiving
it (after stopping the CPU profile); no other signal reaches the handler. -/
def handleSignal : GoSignal → Option Nat
  | .sigint => some 0
  | .otherSignal => none

/-- Exit code selected by main at startup: exit 1 when NewCache fails, exit
1 when ListenToChannel fails, otherwise fall through to printStats. -/
def mainStartupExit (newCacheOk listenOk : Bool) : Option Nat :=
  if !newCacheOk then some 1
  else if !listenOk then some 1
  else none

/-- Minute tick of printStats: given the cached Redis process_id (none
before the first successful InfoMap) and the freshly fetched one (none when
InfoMap fails, which skips the whole block), cache the pid on first success
and exit with code 1 when the fetched pid differs from the cached one. -/
def pidCheckStep (cached : Option String) (fetched : Option String) :
    Option String × Option Nat :=
  match fetched with
  | none => (cached, none)
  | some pid =>
      let cached' := match cached with | none => pid | some p => p
      if pid ≠ cached' then (some cached', some 1) else (some cached', none)

/-! ## The PingUrl polling loop (check.go lines 131-233)

One loop iteration is modelled by pingStep.  Time is a Nat clock in seconds
carried in the state; it advances by CHECK_INTERVAL at the sleep.  The
per-iteration external inputs (the channel resync signal, the probe outcome
and the results of the three cache callbacks) are gathered in IterEnv.  The
callbacks set by addCheck are never nil in the running program, so the nil
guards of the source are not modelled.  Callback invocations are reported as
a list of events so that theorems can speak about which callbacks ran and
when. -/

structure CheckState where
  lastDeadCall : Option Nat
  lastStateChange : Nat
  status : Bool
  firstCheck : Bool
  healthy : Bool
  i : Nat
  now : Nat
  n : Nat
deriving DecidableEq

structure IterEnv where
  resync : Bool
  probe : ProbeResult
  aliveOk : Bool
  deadOk : Bool
  breakLost : Bool
deriving DecidableEq

inductive ExitReason
  | backendGone
  | leaseLost
  | stableHealthy
deriving DecidableEq

inductive CbEvent
  | probe (t : Nat)
  | alive (t : Nat)
  | dead (t : Nat)
  | exitCb
deriving DecidableEq

/-- Transition/refresh section of one iteration (check.go lines 175-208).
The first component is none when a callback returned false and the loop
breaks (backend gone from Redis); otherwise it carries the new values of
lastDeadCall and lastStateChange.  The second component lists the callback
invocations (the callback runs before its result is inspected). -/
def transitionPhase (e : IterEnv) (s : CheckState) :
    Option (Option Nat × Nat) × List CbEvent :=
  if classify e.probe ≠ s.status ∨ (s.firstCheck || e.resync) = true then
    if classify e.probe then
      (if e.aliveOk then some (none, s.now) else none, [CbEvent.alive s.now])
    else
      (if e.deadOk then some (some s.now, s.now) else none, [CbEvent.dead s.now])
  else if classify e.probe = false then
    match s.lastDeadCall with
    | some t =>
        if DEAD_REFRESH_INTERVAL ≤ s.now - t then
          (if e.deadOk then some (some s.now, s.lastStateChange) else none,
           [CbEvent.dead s.now])
        else (some (s.lastDeadCall, s.lastStateChange), [])
    | none => (some (s.lastDeadCall, s.lastStateChange), [])
  else (some (s.lastDeadCall, s.lastStateChange), [])

/-- One full iteration of the PingUrl loop: the select on the resync
channel, one probe and its classification, the transition/refresh section,
then the sleep, the counter updates and the break-interval section (lines
209-227).  The result is (exit reason if the loop breaks, next state, events
of this iteration). -/
def pingStep (e : IterEnv) (s : CheckState) :
    Option ExitReason × CheckState × List CbEvent :=
  match transitionPhase e s with
  | (none, evs) => (some ExitReason.backendGone, s, CbEvent.probe s.now :: evs)
  | (some (lastDeadCall, lastStateChange), evs) =>
      if CHECK_BREAK_INTERVAL ≤ s.i + CHECK_INTERVAL then
        if e.breakLost then (some ExitReason.leaseLost, s, CbEvent.probe s.now :: evs)
        else if CHECK_DURATION ≤ s.now + CHECK_INTERVAL - lastStateChange ∧
            classify e.probe = true then
          (some ExitReason.stableHealthy, s, CbEvent.probe s.now :: evs)
        else
          (none,
           { lastDeadCall := lastDeadCall, lastStateChange := lastStateChange,
             status := classify e.probe, firstCheck := false, healthy := classify e.probe,
             i := 0, now := s.now + CHECK_INTERVAL, n := s.n + 1 },
           CbEvent.probe s.now :: evs)
      else
        (none,
         { lastDeadCall := lastDeadCall, lastStateChange := lastStateChange,
           status := classify e.probe, firstCheck := false, healthy := classify e.probe,
           i := s.i + CHECK_INTERVAL, now := s.now + CHECK_INTERVAL, n := s.n + 1 },
         CbEvent.probe s.now :: evs)

/-- The local variables of PingUrl at entry (lines 133-142), for a loop
started at clock time start. -/
def initialCheckState (start : Nat) : CheckState :=
  { lastDeadCall := none, lastStateChange := start, status := false,
    firstCheck := true, healthy := false, i := 0, now := start, n := 1 }

/-- Run the loop on a finite list of per-iteration inputs.  When an
iteration breaks out of the loop, the exit callback runs exactly once (lines
229-232) and the remaining inputs are not consumed. -/
def pingRun : List IterEnv → CheckState → Option ExitReason × CheckState × List CbEvent
  | [], s => (none, s, [])
  | e :: rest, s =>
      match pingStep e s with
      | (some r, s', evs) => (some r, s', evs ++ [CbEvent.exitCb])
      | (none, s', evs) =>
          ((pingRun rest s').1, (pingRun rest s').2.1, evs ++ (pingRun rest s').2.2)

def isDeadEv : CbEvent → Bool
  | .dead _ => true
  | _ => false

def isAliveEv : CbEvent → Bool
  | .alive _ => true
  | _ => false

def isProbeEv : CbEvent → Bool
  | .probe _ => true
  | _ => false

def isExitEv : CbEvent → Bool
  | .exitCb => true
  | _ => false

/-! ## Claim theorems: parsing and dispatcher -/

/-- C1: in the PingUrl loop, a transport-level (TCP) error yields status
Unhealthy; a response with status code in [500,600) other than 503 yields
Unhealthy; a response with status code 503, or any status code outside
[500,600), yields Healthy. -/
theorem probe_classification :
    classify ProbeResult.tcpError = false ∧
    ∀ code : Nat,
      classify (ProbeResult.httpStatus code) = false ↔
        (500 ≤ code ∧ code < 600 ∧ code ≠ 503) := by
  refine ⟨rfl, fun code => ?_⟩
  by_cases h : 500 ≤ code ∧ code < 600 ∧ code ≠ 503 <;> simp [classify, h]

/-- C7: a notification whose parsed group length is at most 1 makes addCheck
return without issuing any cache operation (in particular without the
LockBackend lease acquisition) and without spawning a check. -/
theorem singleton_group_skipped (line : String) (lg dr : Bool) (c : Check)
    (hok : NewCheck line = Except.ok c) (hlen : c.BackendGroupLength ≤ 1) :
    addCheck line lg dr = { warned := false, ops := [], checkStarted := false } := by
  unfold addCheck
  rw [hok]
  simp [hlen]

theorem singleton_group_skipped_witness :
    NewCheck "fk;http://10.0.0.1:80/;1;1" = Except.ok
      { BackendUrl := "http://10.0.0.1:80", BackendId := 1, BackendGroupLength := 1,
        FrontendKey := "fk" } ∧
    addCheck "fk;http://10.0.0.1:80/;1;1" true false =
      { warned := false, ops := [], checkStarted := false } :=
  ⟨rfl, singleton_group_skipped "fk;http://10.0.0.1:80/;1;1" true false
    { BackendUrl := "http://10.0.0.1:80", BackendId := 1, BackendGroupLength := 1,
      FrontendKey := "fk" } rfl (by decide)⟩

/-- C8: NewCheck on "fk1;http://10.0.0.1:80/;3;5" yields frontend key fk1,
backend origin http://10.0.0.1:80 (path stripped), backend id 3 and group
length 5; and every line that does not split into exactly 4 fields on ";"
makes NewCheck fail, upon which addCheck logs a warning and drops the
notification without issuing any cache operation. -/
theorem notification_roundtrip :
    NewCheck "fk1;http://10.0.0.1:80/;3;5" = Except.ok
      { BackendUrl := "http://10.0.0.1:80", BackendId := 3, BackendGroupLength := 5,
        FrontendKey := "fk1" } ∧
    ∀ line : String, (splitOnChar ';' (trimSpace line.data)).length ≠ 4 →
      NewCheck line = Except.error "Invalid check line" ∧
      ∀ lg dr : Bool,
        addCheck line lg dr = { warned := true, ops := [], checkStarted := false } := by
  refine ⟨rfl, fun line h => ?_⟩
  have hNC : NewCheck line = Except.error "Invalid check line" := by
    unfold NewCheck
    simp only [List.length_map]
    rw [if_pos h]
  exact ⟨hNC, fun lg dr => by unfold addCheck; rw [hNC]⟩

theorem notification_roundtrip_witness :
    ("a;b".data.length = 3) ∧
    NewCheck "a;b" = Except.error "Invalid check line" ∧
    addCheck "a;b" true true = { warned := true, ops := [], checkStarted := false } :=
  ⟨rfl, (notification_roundtrip.2 "a;b" (by decide)).1,
    (notification_roundtrip.2 "a;b" (by decide)).2 true true⟩

/-- C10 (counterexample): a line with exactly 4 fields whose backend id
field "x" is not a decimal integer on which NewCheck nevertheless FAILS,
because its URL field "%zz" carries an invalid percent escape and url.Parse
rejects it; this contradicts the claim that every such 4-field line makes
NewCheck succeed. -/
theorem atoi_url_counterexample :
    (splitOnChar ';' (trimSpace "fk;%zz;x;2".data)).length = 4 ∧
    goAtoiValid "x" = false ∧
    NewCheck "fk;%zz;x;2" = Except.error "invalid URL escape" :=
  ⟨rfl, rfl, rfl⟩

/-- C10 (amended): for every 4-field line whose URL field is accepted by
url.Parse, NewCheck succeeds even when the backendId or groupLength field is
not a decimal integer, with that field set to 0 (Atoi yields 0 and its error
is discarded); in general a syntactically invalid Atoi input yields 0; and
with a non-numeric groupLength the parsed value 0 makes addCheck drop the
notification through the groupLength <= 1 filter without any warning and
without issuing any cache operation. -/
theorem non_numeric_fields_zero (line : String) (u : GoUrl)
    (hlen : (splitOnChar ';' (trimSpace line.data)).length = 4)
    (hurl : urlParse (((splitOnChar ';' (trimSpace line.data)).map String.mk).getD 1 "") =
      Except.ok u)
    (hgl : goAtoiValid (((splitOnChar ';' (trimSpace line.data)).map String.mk).getD 3 "") =
      false) :
    NewCheck line = Except.ok
      { BackendUrl := u.scheme ++ "://" ++ u.host,
        BackendId := atoi (((splitOnChar ';' (trimSpace line.data)).map String.mk).getD 2 ""),
        BackendGroupLength := 0,
        FrontendKey := ((splitOnChar ';' (trimSpace line.data)).map String.mk).getD 0 "" } ∧
    (∀ f : String, goAtoiValid f = false → atoi f = 0) ∧
    ∀ lg2 dr2 : Bool,
      addCheck line lg2 dr2 = { warned := false, ops := [], checkStarted := false } := by
  have hatoi : ∀ f : String, goAtoiValid f = false → atoi f = 0 := by
    intro f hf
    unfold atoi
    rw [hf]
    simp
  have hNC : NewCheck line = Except.ok
      { BackendUrl := u.scheme ++ "://" ++ u.host,
        BackendId := atoi (((splitOnChar ';' (trimSpace line.data)).map String.mk).getD 2 ""),
        BackendGroupLength := 0,
        FrontendKey := ((splitOnChar ';' (trimSpace line.data)).map String.mk).getD 0 "" } := by
    unfold NewCheck
    simp only [List.length_map]
    rw [if_neg (by omega), hurl, hatoi _ hgl]
  refine ⟨hNC, hatoi, fun lg2 dr2 => ?_⟩
  unfold addCheck
  rw [hNC]
  simp

theorem non_numeric_fields_zero_witness :
    (splitOnChar ';' (trimSpace "fk;http://h;7;xy".data)).length = 4 ∧
    goAtoiValid "xy" = false ∧
    NewCheck "fk;http://h;7;xy" = Except.ok
      { BackendUrl := "http://h", BackendId := 7, BackendGroupLength := 0,
        FrontendKey := "fk" } ∧
    addCheck "fk;http://h;7;xy" true false =
      { warned := false, ops := [], checkStarted := false } :=
  ⟨rfl, rfl,
    (non_numeric_fields_zero "fk;http://h;7;xy" { scheme := "http", host := "h" }
      rfl rfl rfl).1,
    (non_numeric_fields_zero "fk;http://h;7;xy" { scheme := "http", host := "h" }
      rfl rfl rfl).2.2 true false⟩

/-- C2 (counterexample): with the dry-run flag set, addCheck still issues the
store-mutating lease acquisition (cache.LockBackend has no dry-run guard),
the exit callback still issues the lease release (cache.UnlockBackend), and
the flagging log line differs from non-simulation mode by the " (dry run)"
suffix; this contradicts the claim that no lease acquire or release is ever
issued and that log lines are identical. -/
theorem dry_run_counterexample :
    CacheOp.lockBackend ∈ (addCheck "fk1;http://10.0.0.1:80/;3;5" true true).ops ∧
    exitCallbackOps true = [CacheOp.unlockBackend] ∧
    deadCallbackMsg true ≠ deadCallbackMsg false := by
  refine ⟨?_, rfl, ?_⟩ <;> decide

/-- C2 (amended): with the dry-run flag set, the mark-dead, mark-alive and
presence-heartbeat store operations are never issued and the dead/alive
callbacks report success regardless of the store; the lease acquisition
performed by addCheck, the lease-check of the break callback and the lease
release of the exit callback are issued exactly as in non-simulation mode
(addCheck is the same function of the line and lock outcome); and the
dead/alive flagging log lines differ from non-simulation mode only by a
" (dry run)" suffix. -/
theorem dry_run_frame :
    (∀ (line : String) (lg : Bool), addCheck line lg true = addCheck line lg false) ∧
    deadCallbackOps true = [] ∧
    aliveCallbackOps true = [] ∧
    printStatsTickOps true = [] ∧
    (∀ r : Bool, deadCallbackRet true r = true ∧ aliveCallbackRet true r = true) ∧
    checkIfBreakOps true = checkIfBreakOps false ∧
    exitCallbackOps true = exitCallbackOps false ∧
    deadCallbackMsg true = deadCallbackMsg false ++ " (dry run)" ∧
    aliveCallbackMsg true = aliveCallbackMsg false ++ " (dry run)" :=
  ⟨fun _ _ => rfl, rfl, rfl, rfl, fun _ => ⟨rfl, rfl⟩, rfl, rfl, rfl, rfl⟩

/-- C9: the process exits with code 0 on SIGINT; with code 1 when the Redis
cache cannot be created or the dead channel cannot be subscribed to at
startup; the first successful process_id fetch only caches the value and
never exits; and a later fetch differing from the cached value exits with
code 1 while an equal fetch (or a failed fetch) continues. -/
theorem process_exit_codes :
    handleSignal GoSignal.sigint = some 0 ∧
    (∀ b : Bool, mainStartupExit false b = some 1) ∧
    mainStartupExit true false = some 1 ∧
    mainStartupExit true true = none ∧
    (∀ p : String, pidCheckStep none (some p) = (some p, none)) ∧
    (∀ p q : String,
      pidCheckStep (some p) (some q) = (some p, if q = p then none else some 1)) ∧
    (∀ c : Option String, pidCheckStep c none = (c, none)) := by
  refine ⟨rfl, fun b => rfl, rfl, rfl, fun p => ?_, fun p q => ?_, fun c => rfl⟩
  · simp [pidCheckStep]
  · by_cases h : q = p <;> simp [pidCheckStep, h]

/-! ## Helper lemmas about pingRun and transitionPhase -/

theorem pingRun_cons_exit (e : IterEnv) (s : CheckState) (rest : List IterEnv)
    {r : ExitReason} {s' : CheckState} {evs : List CbEvent}
    (h : pingStep e s = (some r, s', evs)) :
    pingRun (e :: rest) s = (some r, s', evs ++ [CbEvent.exitCb]) := by
  simp only [pingRun, h]

theorem pingRun_cons_cont (e : IterEnv) (s : CheckState) (rest : List IterEnv)
    {s' : CheckState} {evs : List CbEvent}
    (h : pingStep e s = (none, s', evs)) :
    pingRun (e :: rest) s =
      ((pingRun rest s').1, (pingRun rest s').2.1, evs ++ (pingRun rest s').2.2) := by
  simp only [pingRun, h]

theorem transitionPhase_ok (e : IterEnv) (s : CheckState)
    (ha : e.aliveOk = true) (hd : e.deadOk = true) :
    ∃ p evs, transitionPhase e s = (some p, evs) := by
  rcases hldc : s.lastDeadCall with _ | t <;>
    simp only [transitionPhase, ha, hd, hldc] <;>
    split_ifs <;>
    exact ⟨_, _, rfl⟩

theorem transitionPhase_dead_fail (e : IterEnv) (s : CheckState)
    (hdead : (transitionPhase e s).2.any isDeadEv = true) (hd : e.deadOk = false) :
    transitionPhase e s = (none, [CbEvent.dead s.now]) := by
  rcases hldc : s.lastDeadCall with _ | t <;>
    simp only [transitionPhase, hldc] at hdead ⊢ <;>
    split_ifs at hdead ⊢ <;>
    simp_all [isDeadEv]

theorem transitionPhase_alive_fail (e : IterEnv) (s : CheckState)
    (halive : (transitionPhase e s).2.any isAliveEv = true) (ha : e.aliveOk = false) :
    transitionPhase e s = (none, [CbEvent.alive s.now]) := by
  rcases hldc : s.lastDeadCall with _ | t <;>
    simp only [transitionPhase, hldc] at halive ⊢ <;>
    split_ifs at halive ⊢ <;>
    simp_all [isAliveEv]

/-! ## C5: lease lost at a break-interval boundary -/

/-- C5: at any iteration that reaches a break-interval boundary (the
accumulated sleep time reaches CHECK_BREAK_INTERVAL after this iteration's
sleep), if the break callback reports the lease lost and neither health
callback reports the backend gone, the loop terminates with the lease-lost
exit at that very boundary — hence within one break interval of the loss. -/
theorem lease_lost_exit (e : IterEnv) (s : CheckState) (rest : List IterEnv)
    (hb : CHECK_BREAK_INTERVAL ≤ s.i + CHECK_INTERVAL)
    (hlost : e.breakLost = true) (ha : e.aliveOk = true) (hd : e.deadOk = true) :
    (pingRun (e :: rest) s).1 = some ExitReason.leaseLost := by
  obtain ⟨⟨ldc, lsc⟩, evs, hmid⟩ := transitionPhase_ok e s ha hd
  have hstep : pingStep e s = (some ExitReason.leaseLost, s, CbEvent.probe s.now :: evs) := by
    simp only [pingStep, hmid, if_pos hb, hlost, if_true]
  rw [pingRun_cons_exit e s rest hstep]

def boundaryState : CheckState :=
  { lastDeadCall := none, lastStateChange := 0, status := true, firstCheck := false,
    healthy := true, i := 55, now := 55, n := 12 }

def lostEnv : IterEnv :=
  { resync := false, probe := ProbeResult.httpStatus 200, aliveOk := true,
    deadOk := true, breakLost := true }

theorem lease_lost_exit_witness :
    CHECK_BREAK_INTERVAL ≤ boundaryState.i + CHECK_INTERVAL ∧
    lostEnv.breakLost = true ∧
    (pingRun [lostEnv] boundaryState).1 = some ExitReason.leaseLost :=
  ⟨by decide, rfl, lease_lost_exit lostEnv boundaryState [] (by decide) rfl rfl rfl⟩

/-! ## C6: callback reporting the backend gone stops the loop immediately -/

/-- C6: in any iteration whose dead callback or alive callback is invoked
and returns false (the backend mapping is absent from Redis), the loop
terminates at that iteration with the backend-gone exit: however many inputs
remain, no further probe is performed (exactly one probe event in the whole
remaining run) and the exit callback runs exactly once. -/
theorem backend_gone_immediate (e : IterEnv) (s : CheckState) (rest : List IterEnv)
    (h : ((transitionPhase e s).2.any isDeadEv = true ∧ e.deadOk = false) ∨
         ((transitionPhase e s).2.any isAliveEv = true ∧ e.aliveOk = false)) :
    (pingRun (e :: rest) s).1 = some ExitReason.backendGone ∧
    (pingRun (e :: rest) s).2.2.countP (fun ev => isExitEv ev) = 1 ∧
    (pingRun (e :: rest) s).2.2.countP (fun ev => isProbeEv ev) = 1 := by
  rcases h with ⟨hdead, hd⟩ | ⟨halive, ha⟩
  · have hph := transitionPhase_dead_fail e s hdead hd
    have hstep : pingStep e s =
        (some ExitReason.backendGone, s, [CbEvent.probe s.now, CbEvent.dead s.now]) := by
      unfold pingStep
      rw [hph]
    rw [pingRun_cons_exit e s rest hstep]
    refine ⟨rfl, ?_, ?_⟩ <;> simp [isExitEv, isProbeEv]
  · have hph := transitionPhase_alive_fail e s halive ha
    have hstep : pingStep e s =
        (some ExitReason.backendGone, s, [CbEvent.probe s.now, CbEvent.alive s.now]) := by
      unfold pingStep
      rw [hph]
    rw [pingRun_cons_exit e s rest hstep]
    refine ⟨rfl, ?_, ?_⟩ <;> simp [isExitEv, isProbeEv]

def goneEnv : IterEnv :=
  { resync := false, probe := ProbeResult.tcpError, aliveOk := true,
    deadOk := false, breakLost := false }

theorem backend_gone_immediate_witness :
    ((transitionPhase goneEnv (initialCheckState 0)).2.any isDeadEv = true ∧
      goneEnv.deadOk = false) ∧
    (pingRun [goneEnv, goneEnv] (initialCheckState 0)).1 = some ExitReason.backendGone ∧
    (pingRun [goneEnv, goneEnv] (initialCheckState 0)).2.2.countP (fun ev => isExitEv ev) = 1 ∧
    (pingRun [goneEnv, goneEnv] (initialCheckState 0)).2.2.countP (fun ev => isProbeEv ev) = 1 :=
  ⟨⟨by decide, rfl⟩,
    backend_gone_immediate goneEnv (initialCheckState 0) [goneEnv] (Or.inl ⟨by decide, rfl⟩)⟩

/-! ## C3: the dead record is refreshed at least every 30 seconds -/

/-- Invariant of a reachable loop state: once the first iteration has run
(firstCheck is false), an Unhealthy state always carries the time of the
last dead-callback invocation, it lies in the past, at most
DEAD_REFRESH_INTERVAL seconds ago, and at a whole number of poll intervals
(the clock only advances by CHECK_INTERVAL). -/
def DeadInv (s : CheckState) : Prop :=
  s.status = false → s.firstCheck = false →
    ∃ t, s.lastDeadCall = some t ∧ t ≤ s.now ∧
      s.now - t ≤ DEAD_REFRESH_INTERVAL ∧ (s.now - t) % CHECK_INTERVAL = 0

/-- Behaviour of the transition/refresh phase needed for the refresh bound:
on an Unhealthy probe the new lastDeadCall is a dead-callback time at most
DEAD_REFRESH_INTERVAL seconds old at the next iteration; on a Healthy probe
no dead callback runs; and every dead-callback invocation of this phase
happens at most 30 seconds after the previous one recorded in lastDeadCall
(when the state was already Unhealthy and past its first iteration). -/
theorem transitionPhase_spec (e : IterEnv) (s : CheckState) (ldc : Option Nat) (lsc : Nat)
    (pevs : List CbEvent) (hinv : DeadInv s)
    (hph : transitionPhase e s = (some (ldc, lsc), pevs)) :
    (classify e.probe = false →
      ∃ t, ldc = some t ∧ t ≤ s.now + CHECK_INTERVAL ∧
        s.now + CHECK_INTERVAL - t ≤ DEAD_REFRESH_INTERVAL ∧
        (s.now + CHECK_INTERVAL - t) % CHECK_INTERVAL = 0) ∧
    (classify e.probe = true → pevs.any isDeadEv = false) ∧
    (s.status = false → s.firstCheck = false →
      ∀ t t', s.lastDeadCall = some t → CbEvent.dead t' ∈ pevs → t' - t ≤ 30) := by
  by_cases hcond : classify e.probe ≠ s.status ∨ (s.firstCheck || e.resync) = true
  · cases hcl : classify e.probe
    case pos.false =>
      cases hd : e.deadOk
      case false =>
        have htp : transitionPhase e s = (none, [CbEvent.dead s.now]) := by
          unfold transitionPhase
          rw [if_pos hcond]
          simp [hcl, hd]
        rw [htp] at hph
        simp at hph
      case true =>
        have htp : transitionPhase e s =
            (some (some s.now, s.now), [CbEvent.dead s.now]) := by
          unfold transitionPhase
          rw [if_pos hcond]
          simp [hcl, hd]
        rw [htp] at hph
        injection hph with hA hB
        injection hA with hA'
        injection hA' with h1 h2
        subst h1 h2 hB
        refine ⟨?_, ?_, ?_⟩
        · intro _
          refine ⟨s.now, rfl, ?_, ?_, ?_⟩ <;>
            simp only [CHECK_INTERVAL, DEAD_REFRESH_INTERVAL] <;> omega
        · intro ht
          simp at ht
        · intro hst hfc t t' hsome hmem
          simp only [List.mem_singleton, CbEvent.dead.injEq] at hmem
          obtain ⟨tI, hsomeI, hleI, hbI, hmI⟩ := hinv hst hfc
          rw [hsome] at hsomeI
          injection hsomeI with htI
          simp only [DEAD_REFRESH_INTERVAL] at hbI
          omega
    case pos.true =>
      cases ha : e.aliveOk
      case false =>
        have htp : transitionPhase e s = (none, [CbEvent.alive s.now]) := by
          unfold transitionPhase
          rw [if_pos hcond]
          simp [hcl, ha]
        rw [htp] at hph
        simp at hph
      case true =>
        have htp : transitionPhase e s = (some (none, s.now), [CbEvent.alive s.now]) := by
          unfold transitionPhase
          rw [if_pos hcond]
          simp [hcl, ha]
        rw [htp] at hph
        injection hph with hA hB
        injection hA with hA'
        injection hA' with h1 h2
        subst h1 h2 hB
        refine ⟨?_, ?_, ?_⟩
        · intro hf
          simp at hf
        · intro _
          simp [isDeadEv]
        · intro _ _ t t' _ hmem
          simp [isDeadEv] at hmem
  · have hcomp := hcond
    push_neg at hcomp
    obtain ⟨hcs, hcf⟩ := hcomp
    have hfc : s.firstCheck = false := by
      cases hF : s.firstCheck
      · rfl
      · exact absurd (by rw [hF]; rfl) hcf
    cases hcl : classify e.probe
    · -- probe Unhealthy
      have hst : s.status = false := by rw [← hcs, hcl]
      rcases hldc : s.lastDeadCall with _ | t0
      · have htp : transitionPhase e s = (some (s.lastDeadCall, s.lastStateChange), []) := by
          unfold transitionPhase
          rw [if_neg hcond, if_pos hcl, hldc]
        rw [htp] at hph
        injection hph with hA hB
        injection hA with hA'
        injection hA' with h1 h2
        subst h1 h2 hB
        refine ⟨?_, ?_, ?_⟩
        · intro _
          obtain ⟨tI, hsomeI, _⟩ := hinv hst hfc
          rw [hldc] at hsomeI
          cases hsomeI
        · intro _
          rfl
        · intro _ _ t t' _ hmem
          simp at hmem
      · by_cases h30 : DEAD_REFRESH_INTERVAL ≤ s.now - t0
        · cases hd : e.deadOk
          · have htp : transitionPhase e s = (none, [CbEvent.dead s.now]) := by
              unfold transitionPhase
              rw [if_neg hcond, if_pos hcl, hldc]
              simp [h30, hd]
            rw [htp] at hph
            simp at hph
          · have htp : transitionPhase e s =
                (some (some s.now, s.lastStateChange), [CbEvent.dead s.now]) := by
              unfold transitionPhase
              rw [if_neg hcond, if_pos hcl, hldc]
              simp [h30, hd]
            rw [htp] at hph
            injection hph with hA hB
            injection hA with hA'
            injection hA' with h1 h2
            subst h1 h2 hB
            refine ⟨?_, ?_, ?_⟩
            · intro _
              refine ⟨s.now, rfl, ?_, ?_, ?_⟩ <;>
                simp only [CHECK_INTERVAL, DEAD_REFRESH_INTERVAL] <;> omega
            · intro ht
              simp at ht
            · intro _ _ t t' hsome hmem
              simp only [List.mem_singleton, CbEvent.dead.injEq] at hmem
              injection hsome with ht
              obtain ⟨tI, hsomeI, hleI, hbI, hmI⟩ := hinv hst hfc
              rw [hldc] at hsomeI
              injection hsomeI with htI
              simp only [DEAD_REFRESH_INTERVAL] at hbI
              omega
        · have htp : transitionPhase e s =
              (some (some t0, s.lastStateChange), []) := by
            unfold transitionPhase
            rw [if_neg hcond, if_pos hcl, hldc]
            simp [h30]
          rw [htp] at hph
          injection hph with hA hB
          injection hA with hA'
          injection hA' with h1 h2
          subst h1 h2 hB
          refine ⟨?_, ?_, ?_⟩
          · intro _
            obtain ⟨tI, hsomeI, hleI, hbI, hmI⟩ := hinv hst hfc
            rw [hldc] at hsomeI
            injection hsomeI with htI
            subst htI
            refine ⟨t0, rfl, ?_, ?_, ?_⟩ <;>
              simp only [CHECK_INTERVAL, DEAD_REFRESH_INTERVAL] at hbI hmI h30 ⊢ <;> omega
          · intro _
            rfl
          · intro _ _ t t' _ hmem
            simp at hmem
    · -- probe Healthy, no transition
      have htp : transitionPhase e s = (some (s.lastDeadCall, s.lastStateChange), []) := by
        unfold transitionPhase
        rw [if_neg hcond, if_neg (by simp [hcl])]
      rw [htp] at hph
      injection hph with hA hB
      injection hA with hA'
      injection hA' with h1 h2
      subst h1 h2 hB
      refine ⟨?_, ?_, ?_⟩
      · intro hf
        simp at hf
      · intro _
        rfl
      · intro _ _ t t' _ hmem
        simp at hmem

/-- C3: one non-exiting iteration of the PingUrl loop preserves the
dead-refresh invariant — while the status is Unhealthy the last
dead-callback invocation is never more than 30 seconds in the past — and
when the state was already Unhealthy past its first iteration, any dead
callback invoked during the iteration runs at most 30 seconds after the
previous invocation recorded in lastDeadCall.  Hence for a Check that stays
Unhealthy the time between consecutive dead-callback invocations never
exceeds 30 seconds. -/
theorem dead_refresh_bounded (e : IterEnv) (s s' : CheckState) (evs : List CbEvent)
    (hinv : DeadInv s) (hstep : pingStep e s = (none, s', evs)) :
    DeadInv s' ∧
    (s.status = false → s.firstCheck = false →
      ∀ t t', s.lastDeadCall = some t → CbEvent.dead t' ∈ evs → t' - t ≤ 30) := by
  unfold pingStep at hstep
  rcases hph : transitionPhase e s with ⟨o, pevs⟩
  rw [hph] at hstep
  rcases o with _ | ⟨ldc, lsc⟩
  · simp at hstep
  · obtain ⟨hc1, hc2, hc3⟩ := transitionPhase_spec e s ldc lsc pevs hinv hph
    replace hstep :
        (if CHECK_BREAK_INTERVAL ≤ s.i + CHECK_INTERVAL then
          if e.breakLost = true then
            (some ExitReason.leaseLost, s, CbEvent.probe s.now :: pevs)
          else if CHECK_DURATION ≤ s.now + CHECK_INTERVAL - lsc ∧ classify e.probe = true then
            (some ExitReason.stableHealthy, s, CbEvent.probe s.now :: pevs)
          else
            (none,
             { lastDeadCall := ldc, lastStateChange := lsc, status := classify e.probe,
               firstCheck := false, healthy := classify e.probe, i := 0,
               now := s.now + CHECK_INTERVAL, n := s.n + 1 },
             CbEvent.probe s.now :: pevs)
        else
          (none,
           { lastDeadCall := ldc, lastStateChange := lsc, status := classify e.probe,
             firstCheck := false, healthy := classify e.probe, i := s.i + CHECK_INTERVAL,
             now := s.now + CHECK_INTERVAL, n := s.n + 1 },
           CbEvent.probe s.now :: pevs)) = (none, s', evs) := hstep
    split_ifs at hstep with hA hB hC
    · simp at hstep
    · simp at hstep
    · simp only [Prod.mk.injEq, true_and] at hstep
      obtain ⟨hs', hevs⟩ := hstep
      subst hs' hevs
      constructor
      · intro hst' _
        exact hc1 hst'
      · intro hst hfc t t' hsome hmem
        rcases List.mem_cons.mp hmem with h | h
        · simp at h
        · exact hc3 hst hfc t t' hsome h
    · simp only [Prod.mk.injEq, true_and] at hstep
      obtain ⟨hs', hevs⟩ := hstep
      subst hs' hevs
      constructor
      · intro hst' _
        exact hc1 hst'
      · intro hst hfc t t' hsome hmem
        rcases List.mem_cons.mp hmem with h | h
        · simp at h
        · exact hc3 hst hfc t t' hsome h

def deadEnvW : IterEnv :=
  { resync := false, probe := ProbeResult.tcpError, aliveOk := true,
    deadOk := true, breakLost := false }

def deadStateW : CheckState :=
  { lastDeadCall := some 0, lastStateChange := 0, status := false, firstCheck := false,
    healthy := false, i := 0, now := 30, n := 7 }

def deadStateW' : CheckState :=
  { lastDeadCall := some 30, lastStateChange := 0, status := false, firstCheck := false,
    healthy := false, i := 5, now := 35, n := 8 }

theorem dead_refresh_bounded_witness :
    DeadInv deadStateW ∧
    pingStep deadEnvW deadStateW = (none, deadStateW', [CbEvent.probe 30, CbEvent.dead 30]) ∧
    (DeadInv deadStateW' ∧
      (deadStateW.status = false → deadStateW.firstCheck = false →
        ∀ t t', deadStateW.lastDeadCall = some t →
          CbEvent.dead t' ∈ [CbEvent.probe 30, CbEvent.dead 30] → t' - t ≤ 30)) := by
  have hInvW : DeadInv deadStateW := by
    intro _ _
    exact ⟨0, rfl, by decide, by decide, by decide⟩
  have hstepW : pingStep deadEnvW deadStateW =
      (none, deadStateW', [CbEvent.probe 30, CbEvent.dead 30]) := by decide
  exact ⟨hInvW, hstepW, dead_refresh_bounded deadEnvW deadStateW deadStateW' _ hInvW hstepW⟩

/-! ## C4: a stably Healthy check exits at the next break boundary -/

/-- Iteration inputs under which the backend keeps looking healthy: the
probe classifies as Healthy, no resync signal arrives and the lease is not
reported lost. -/
def HealthyEnv (e : IterEnv) : Prop :=
  classify e.probe = true ∧ e.resync = false ∧ e.breakLost = false

/-- Shape of a loop state that is currently Healthy and past its first
iteration (the shape every continuing state of a healthy run has). -/
def StableS (s : CheckState) : Prop :=
  s.status = true ∧ s.firstCheck = false ∧ s.i < CHECK_BREAK_INTERVAL ∧
    s.lastStateChange ≤ s.now

/-- C4: from any Healthy steady state, a run whose inputs all keep the
backend healthy and whose length covers the stability window plus one break
interval (counted from lastStateChange) terminates with the stable-healthy
exit: once CHECK_DURATION seconds have elapsed since the last state change,
the loop exits at the next break-interval boundary, provided the lease is
never reported lost. -/
theorem stable_healthy_exit (envs : List IterEnv) (s : CheckState)
    (hS : StableS s) (hE : ∀ e ∈ envs, HealthyEnv e)
    (h1 : CHECK_BREAK_INTERVAL - s.i ≤ CHECK_INTERVAL * envs.length)
    (h2 : s.lastStateChange + (CHECK_DURATION + CHECK_BREAK_INTERVAL) ≤
      CHECK_INTERVAL * envs.length + s.now) :
    (pingRun envs s).1 = some ExitReason.stableHealthy := by
  induction envs generalizing s with
  | nil =>
      obtain ⟨hst, hfc, hi, hls⟩ := hS
      simp only [CHECK_INTERVAL, CHECK_BREAK_INTERVAL, CHECK_DURATION,
        List.length_nil] at h1 h2 hi
      omega
  | cons e rest ih =>
      obtain ⟨hst, hfc, hi, hls⟩ := hS
      obtain ⟨hcl, hres, hbl⟩ := hE e (List.mem_cons_self e rest)
      have hph : transitionPhase e s = (some (s.lastDeadCall, s.lastStateChange), []) := by
        unfold transitionPhase
        rw [if_neg (by simp [hcl, hst, hfc, hres]), if_neg (by simp [hcl])]
      have hstep0 : pingStep e s =
          (if CHECK_BREAK_INTERVAL ≤ s.i + CHECK_INTERVAL then
            if e.breakLost = true then
              (some ExitReason.leaseLost, s, [CbEvent.probe s.now])
            else if CHECK_DURATION ≤ s.now + CHECK_INTERVAL - s.lastStateChange ∧
                classify e.probe = true then
              (some ExitReason.stableHealthy, s, [CbEvent.probe s.now])
            else
              (none,
               { lastDeadCall := s.lastDeadCall, lastStateChange := s.lastStateChange,
                 status := classify e.probe, firstCheck := false,
                 healthy := classify e.probe, i := 0,
                 now := s.now + CHECK_INTERVAL, n := s.n + 1 },
               [CbEvent.probe s.now])
          else
            (none,
             { lastDeadCall := s.lastDeadCall, lastStateChange := s.lastStateChange,
               status := classify e.probe, firstCheck := false,
               healthy := classify e.probe, i := s.i + CHECK_INTERVAL,
               now := s.now + CHECK_INTERVAL, n := s.n + 1 },
             [CbEvent.probe s.now])) := by
        unfold pingStep
        rw [hph]
      by_cases hbreak : CHECK_BREAK_INTERVAL ≤ s.i + CHECK_INTERVAL
      · by_cases hstable : CHECK_DURATION ≤ s.now + CHECK_INTERVAL - s.lastStateChange
        · have hstepX : pingStep e s =
              (some ExitReason.stableHealthy, s, [CbEvent.probe s.now]) := by
            rw [hstep0, if_pos hbreak, if_neg (by simp [hbl]), if_pos ⟨hstable, hcl⟩]
          rw [pingRun_cons_exit e s rest hstepX]
        · have hstepX : pingStep e s =
              (none,
               { lastDeadCall := s.lastDeadCall, lastStateChange := s.lastStateChange,
                 status := classify e.probe, firstCheck := false,
                 healthy := classify e.probe, i := 0,
                 now := s.now + CHECK_INTERVAL, n := s.n + 1 },
               [CbEvent.probe s.now]) := by
            rw [hstep0, if_pos hbreak, if_neg (by simp [hbl]),
              if_neg (fun h => hstable h.1)]
          rw [pingRun_cons_cont e s rest hstepX]
          show (pingRun rest
            { lastDeadCall := s.lastDeadCall, lastStateChange := s.lastStateChange,
              status := classify e.probe, firstCheck := false,
              healthy := classify e.probe, i := 0,
              now := s.now + CHECK_INTERVAL, n := s.n + 1 }).1 =
            some ExitReason.stableHealthy
          apply ih
          · exact ⟨hcl, rfl, by simp [CHECK_BREAK_INTERVAL], by
              simp only [CHECK_INTERVAL]
              omega⟩
          · exact fun e' he' => hE e' (List.mem_cons_of_mem e he')
          · simp only [CHECK_INTERVAL, CHECK_BREAK_INTERVAL, CHECK_DURATION,
              List.length_cons] at h1 h2 hstable ⊢
            omega
          · simp only [CHECK_INTERVAL, CHECK_BREAK_INTERVAL, CHECK_DURATION,
              List.length_cons] at h1 h2 hstable ⊢
            omega
      · have hstepX : pingStep e s =
            (none,
             { lastDeadCall := s.lastDeadCall, lastStateChange := s.lastStateChange,
               status := classify e.probe, firstCheck := false,
               healthy := classify e.probe, i := s.i + CHECK_INTERVAL,
               now := s.now + CHECK_INTERVAL, n := s.n + 1 },
             [CbEvent.probe s.now]) := by
          rw [hstep0, if_neg hbreak]
        rw [pingRun_cons_cont e s rest hstepX]
        show (pingRun rest
          { lastDeadCall := s.lastDeadCall, lastStateChange := s.lastStateChange,
            status := classify e.probe, firstCheck := false,
            healthy := classify e.probe, i := s.i + CHECK_INTERVAL,
            now := s.now + CHECK_INTERVAL, n := s.n + 1 }).1 =
          some ExitReason.stableHealthy
        apply ih
        · refine ⟨hcl, rfl, ?_, ?_⟩
          · simp only [CHECK_INTERVAL, CHECK_BREAK_INTERVAL] at hbreak ⊢
            omega
          · simp only [CHECK_INTERVAL]
            omega
        · exact fun e' he' => hE e' (List.mem_cons_of_mem e he')
        · simp only [CHECK_INTERVAL, CHECK_BREAK_INTERVAL, List.length_cons] at h1 ⊢
          omega
        · simp only [CHECK_INTERVAL, CHECK_DURATION, CHECK_BREAK_INTERVAL,
            List.length_cons] at h2 ⊢
          omega

def steadyEnvW : IterEnv :=
  { resync := false, probe := ProbeResult.httpStatus 200, aliveOk := true,
    deadOk := true, breakLost := false }

def steadyStateW : CheckState :=
  { lastDeadCall := none, lastStateChange := 0, status := true, firstCheck := false,
    healthy := true, i := 0, now := 0, n := 1 }

theorem stable_healthy_exit_witness :
    StableS steadyStateW ∧
    (∀ e ∈ List.replicate 72 steadyEnvW, HealthyEnv e) ∧
    CHECK_BREAK_INTERVAL - steadyStateW.i ≤
      CHECK_INTERVAL * (List.replicate 72 steadyEnvW).length ∧
    steadyStateW.lastStateChange + (CHECK_DURATION + CHECK_BREAK_INTERVAL) ≤
      CHECK_INTERVAL * (List.replicate 72 steadyEnvW).length + steadyStateW.now ∧
    (pingRun (List.replicate 72 steadyEnvW) steadyStateW).1 =
      some ExitReason.stableHealthy := by
  have hSW : StableS steadyStateW := ⟨rfl, rfl, by decide, by decide⟩
  have hEW : ∀ e ∈ List.replicate 72 steadyEnvW, HealthyEnv e := by
    intro e he
    rw [List.eq_of_mem_replicate he]
    exact ⟨rfl, rfl, rfl⟩
  exact ⟨hSW, hEW, by decide, by decide,
    stable_healthy_exit (List.replicate 72 steadyEnvW) steadyStateW hSW hEW
      (by decide) (by decide)⟩
